import Mathlib

/-!
Shallow embedding of the `eda_configuration` Ansible collection
(`src/plugins/modules/rulebook_activation.py`, `src/plugins/modules/user.py`,
`src/plugins/modules/users.py`) together with a model of the shared
`EDAModule` helper (`plugins/module_utils/eda_module.py`), which is not part
of the given sources and is therefore modelled from the specification.

Each module's `main` is embedded as a pure function from its parameters and a
backend state to a run record carrying the trace of REST calls issued (in
order), the warnings emitted, and either an error or the `changed` flag
together with the resulting backend state.
-/

namespace Eda

/-- The desired state of a resource, from the `state` module option. -/
inductive State where
  | present
  | absent
deriving DecidableEq, Repr

/-- Errors surfaced by the module helpers and by `fail_json`. -/
inductive EdaError where
  | notFound (collection : String) (key : String)
  | ambiguous (collection : String) (key : String)
  | failJson (msg : String)
  | nameError (var : String)
deriving DecidableEq, Repr

/-- An extra-variables dictionary (the `variables` option), modelled as an
association list of keys to string values. -/
abbrev Vars := List (String × String)

/-! ## Backend data for the rulebook activation module -/

/-- A project as stored in the controller (`projects` collection). -/
structure Project where
  id : Nat
  name : String
deriving DecidableEq, Repr

/-- A decision environment (`decision-environments` collection). -/
structure DecisionEnv where
  id : Nat
  name : String
deriving DecidableEq, Repr

/-- A rulebook (`rulebooks` collection); rulebook names are unique only
within a project, so the owning project id is part of the record. -/
structure Rulebook where
  id : Nat
  name : String
  project_id : Nat
deriving DecidableEq, Repr

/-- An extra-variables resource (`extra-vars` collection). -/
structure ExtraVar where
  id : Nat
  extra_var : Vars
deriving DecidableEq, Repr

/-- The field payload submitted for a rulebook activation, as assembled into
`new_fields` by `rulebook_activation.main` (lines 133-189). `description` and
`extra_var_id` are absent from the payload when the corresponding options are
unset. -/
structure ActFields where
  name : String
  description : Option String
  restart_policy : String
  is_enabled : Bool
  project_id : Nat
  decision_environment_id : Nat
  rulebook_id : Nat
  extra_var_id : Option Nat
deriving DecidableEq, Repr

/-- A rulebook activation as stored in the controller (`activations`). -/
structure Activation where
  id : Nat
  fields : ActFields
deriving DecidableEq, Repr

/-- The controller-side store visible to the rulebook activation module. -/
structure ActBackend where
  activations : List Activation
  extraVars : List ExtraVar
  projects : List Project
  decisionEnvs : List DecisionEnv
  rulebooks : List Rulebook
  nextId : Nat
deriving DecidableEq, Repr

/-- The module parameters of `rulebook_activation.py` (its `argument_spec`,
lines 109-120): required options are plain values, optional ones are
`Option`; `restart_policy` and `is_enabled` carry their defaults. -/
structure ActParams where
  name : String
  new_name : Option String
  description : Option String
  project : String
  rulebook : String
  decision_environment : String
  restart_policy : String
  is_enabled : Bool
  «variables» : Option Vars
  state : State
deriving DecidableEq, Repr

/-- One REST call issued by the rulebook activation module, reads included. -/
inductive ActCall where
  | getActivations (name : String)
  | getProjects (name : String)
  | getDecisionEnvs (name : String)
  | getRulebooks (name : String) (project_id : Nat)
  | deleteActivation (id : Nat)
  | createExtraVars (vars : Vars)
  | createActivation (fields : ActFields)
  | updateActivation (id : Nat) (fields : ActFields)
deriving DecidableEq, Repr

/-- Whether a call mutates backend state (anything but a read). -/
def ActCall.isMutating : ActCall → Bool
  | .getActivations _ => false
  | .getProjects _ => false
  | .getDecisionEnvs _ => false
  | .getRulebooks _ _ => false
  | .deleteActivation _ => true
  | .createExtraVars _ => true
  | .createActivation _ => true
  | .updateActivation _ _ => true

/-- Whether a call creates a resource. -/
def ActCall.isCreate : ActCall → Bool
  | .createExtraVars _ => true
  | .createActivation _ => true
  | _ => false

/-- The result of one invocation of the activation module: the ordered trace
of REST calls, the warnings emitted, and on success the `changed` flag and
the backend state after the run. -/
structure ActRun where
  trace : List ActCall
  warnings : List String
  result : Except EdaError (Bool × ActBackend)
deriving Repr

/-! ## Modelled EDAModule helpers (resolver / transport semantics)

`plugins/module_utils/eda_module.py` is not among the given sources; these
helpers are modelled from the spec. -/

/-- Modelled from the spec: `EDAModule.get_one` — `getOne(endpoint, key)`
returns the existing resource or `None`, and "fails if more than one match"
(spec section 6). Missing source: `eda_module.py`. -/
def actGetOne (items : List Activation) (nm : String) :
    Except EdaError (Option Activation) :=
  match items.filter (fun a => a.fields.name == nm) with
  | [] => .ok none
  | [a] => .ok (some a)
  | _ :: _ :: _ => .error (.ambiguous "activations" nm)

/-- Modelled from the spec: `EDAModule.resolve_name_to_id` — query the
collection; exactly one match yields its identifier, zero matches fail with
NotFound, several matches fail with Ambiguous (spec section 4.1). Missing
source: `eda_module.py`. Instantiated at name-keyed collections. -/
def resolveNameToId (collection : String) (getName : α → String)
    (getId : α → Nat) (items : List α) (nm : String) : Except EdaError Nat :=
  match items.filter (fun i => getName i == nm) with
  | [] => .error (.notFound collection nm)
  | [i] => .ok (getId i)
  | _ :: _ :: _ => .error (.ambiguous collection nm)

/-- Modelled from the spec: `EDAModule.get_exactly_one` on `rulebooks` with a
`project_id` search filter — the composite filter must yield exactly one
match (spec sections 4.1 and 8, ambiguity handling). Missing source:
`eda_module.py`. -/
def getExactlyOneRulebook (items : List Rulebook) (nm : String)
    (pid : Nat) : Except EdaError Rulebook :=
  match items.filter (fun r => r.name == nm && r.project_id == pid) with
  | [] => .error (.notFound "rulebooks" nm)
  | [r] => .ok r
  | _ :: _ :: _ => .error (.ambiguous "rulebooks" nm)

/-- Deleting an activation from the store (effect of
`EDAModule.delete_if_needed`; modelled from the spec, missing source:
`eda_module.py`). -/
def removeActivation (b : ActBackend) (i : Nat) : ActBackend :=
  { b with activations := b.activations.filter (fun a => a.id ≠ i) }

/-- Creating an extra-vars resource (effect of `EDAModule.create_if_needed`
on `extra-vars`; modelled from the spec, missing source: `eda_module.py`).
The store assigns the next fresh identifier. -/
def addExtraVar (b : ActBackend) (v : Vars) : ExtraVar × ActBackend :=
  (⟨b.nextId, v⟩,
   { b with extraVars := b.extraVars ++ [⟨b.nextId, v⟩], nextId := b.nextId + 1 })

/-- Creating an activation in the store. Modelled from the spec (missing
source: `eda_module.py`); the created resource gets a fresh identifier. -/
def addActivation (b : ActBackend) (f : ActFields) : Activation × ActBackend :=
  (⟨b.nextId, f⟩,
   { b with activations := b.activations ++ [⟨b.nextId, f⟩], nextId := b.nextId + 1 })

/-- Comparison of a submitted activation payload against an existing
activation (spec section 4.2 step e: compare each merged submission field
against the existing resource's corresponding field; fields absent from the
submission are not compared). Modelled from the spec, missing source:
`eda_module.py`. -/
def actFieldsMatch (a : Activation) (f : ActFields) : Bool :=
  f.name == a.fields.name
    && (match f.description with
        | none => true
        | some d => a.fields.description == some d)
    && f.restart_policy == a.fields.restart_policy
    && f.is_enabled == a.fields.is_enabled
    && f.project_id == a.fields.project_id
    && f.decision_environment_id == a.fields.decision_environment_id
    && f.rulebook_id == a.fields.rulebook_id
    && (match f.extra_var_id with
        | none => true
        | some e => a.fields.extra_var_id == some e)

/-- Updating an existing activation in place with a submitted payload.
Modelled from the spec (missing source: `eda_module.py`). -/
def updateActivationStore (b : ActBackend) (i : Nat) (f : ActFields) : ActBackend :=
  { b with activations :=
      b.activations.map (fun a => if a.id = i then ⟨a.id, f⟩ else a) }

/-- Modelled from the spec: `EDAModule.create_or_update_if_needed` — with no
existing resource, create; with an existing resource, update when any
submitted field differs, otherwise report unchanged (spec section 4.2 step
e). Missing source: `eda_module.py`. Returns the mutating calls issued, the
`changed` flag and the new store. -/
def actCreateOrUpdate (existing : Option Activation) (f : ActFields)
    (b : ActBackend) : List ActCall × Bool × ActBackend :=
  match existing with
  | none => ([.createActivation f], true, (addActivation b f).2)
  | some a =>
    if actFieldsMatch a f then ([], false, b)
    else ([.updateActivation a.id f], true, updateActivationStore b a.id f)

/-- The key carried by the submission payload: line 145 of
`rulebook_activation.py` and line 140 of `user.py` —
`new_name if new_name else (existing key if existing else name)`. -/
def chosenKey (newKey : Option String) (existingKey : Option String)
    (origKey : String) : String :=
  match newKey with
  | some n => n
  | none =>
    match existingKey with
    | some k => k
    | none => origKey

/-- The warning emitted at line 175 of `rulebook_activation.py`. -/
def actWarning (nm : String) : String :=
  "Rulebook activations cannot be updated in-place. Activation " ++ nm ++
    " will be removed and recreated"

/-- Embedding of `main` in `src/plugins/modules/rulebook_activation.py`
(lines 107-198): look up the existing activation, handle `state=absent`,
assemble `new_fields`, resolve the project, decision environment and
rulebook references, delete an existing activation (with a warning), create
the extra-vars sub-resource when `variables` is given, then hand off to
`create_or_update_if_needed` with no existing item. -/
def activation_main (p : ActParams) (b : ActBackend) : ActRun :=
  match actGetOne b.activations p.name with
  | .error e => ⟨[.getActivations p.name], [], .error e⟩
  | .ok existing =>
    match p.state with
    | .absent =>
      match existing with
      | none => ⟨[.getActivations p.name], [], .ok (false, b)⟩
      | some a =>
        ⟨[.getActivations p.name, .deleteActivation a.id], [],
         .ok (true, removeActivation b a.id)⟩
    | .present =>
      let theName :=
        chosenKey p.new_name (existing.map (fun a => a.fields.name)) p.name
      match resolveNameToId "projects" Project.name Project.id
          b.projects p.project with
      | .error e =>
        ⟨[.getActivations p.name, .getProjects p.project], [], .error e⟩
      | .ok pid =>
        match resolveNameToId "decision-environments" DecisionEnv.name
            DecisionEnv.id b.decisionEnvs p.decision_environment with
        | .error e =>
          ⟨[.getActivations p.name, .getProjects p.project,
            .getDecisionEnvs p.decision_environment], [], .error e⟩
        | .ok did =>
          match getExactlyOneRulebook b.rulebooks p.rulebook pid with
          | .error e =>
            ⟨[.getActivations p.name, .getProjects p.project,
              .getDecisionEnvs p.decision_environment,
              .getRulebooks p.rulebook pid], [], .error e⟩
          | .ok rb =>
            let reads : List ActCall :=
              [.getActivations p.name, .getProjects p.project,
               .getDecisionEnvs p.decision_environment,
               .getRulebooks p.rulebook pid]
            let warns : List String :=
              match existing with
              | some _ => [actWarning p.name]
              | none => []
            let delTrace : List ActCall :=
              match existing with
              | some a => [.deleteActivation a.id]
              | none => []
            let b1 : ActBackend :=
              match existing with
              | some a => removeActivation b a.id
              | none => b
            match p.«variables» with
            | some v =>
              let (ev, b2) := addExtraVar b1 v
              let f : ActFields :=
                ⟨theName, p.description, p.restart_policy, p.is_enabled,
                 pid, did, rb.id, some ev.id⟩
              let (cu, changed, b3) := actCreateOrUpdate none f b2
              ⟨reads ++ delTrace ++ [.createExtraVars v] ++ cu, warns,
               .ok (changed, b3)⟩
            | none =>
              let f : ActFields :=
                ⟨theName, p.description, p.restart_policy, p.is_enabled,
                 pid, did, rb.id, none⟩
              let (cu, changed, b2) := actCreateOrUpdate none f b1
              ⟨reads ++ delTrace ++ cu, warns, .ok (changed, b2)⟩

/-- Replay a trace of activation-module calls against a store: reads leave
it unchanged, mutating calls apply their effect (creates draw the next fresh
identifier, as the store does). -/
def applyActCalls (b : ActBackend) : List ActCall → ActBackend
  | [] => b
  | c :: rest =>
    let b1 :=
      match c with
      | .deleteActivation i => removeActivation b i
      | .createExtraVars v => (addExtraVar b v).2
      | .createActivation f => (addActivation b f).2
      | .updateActivation i f => updateActivationStore b i f
      | _ => b
    applyActCalls b1 rest

/-! ## Backend data for the user module -/

/-- A role object as stored in the controller (`roles` collection) and as
nested inside a returned user record. -/
structure RoleObj where
  id : Nat
  name : String
deriving DecidableEq, Repr

/-- A user as stored in the controller (`users` collection). The server
returns the user's roles as full nested role objects (not bare ids). -/
structure StoredUser where
  id : Nat
  username : String
  first_name : Option String
  last_name : Option String
  password : String
  is_superuser : Bool
  roles : List RoleObj
deriving DecidableEq, Repr

/-- The controller-side store visible to the user module. -/
structure UserBackend where
  users : List StoredUser
  roles : List RoleObj
  nextId : Nat
deriving DecidableEq, Repr

/-- The module parameters of `user.py` (its `argument_spec`, lines 99-108):
`roles` and `password` are required, `is_superuser` defaults to false. -/
structure UserParams where
  username : String
  new_username : Option String
  first_name : Option String
  last_name : Option String
  roles : List String
  password : String
  is_superuser : Bool
  state : State
deriving DecidableEq, Repr

/-- The field payload submitted for a user, as assembled into `new_fields`
by `user.main` (lines 120-177). -/
structure UserFields where
  username : String
  first_name : Option String
  last_name : Option String
  password : String
  is_superuser : Bool
  roles : List Nat
deriving DecidableEq, Repr

/-- One REST call issued by the user module, reads included. -/
inductive UserCall where
  | getUsers
  | getRoles
  | deleteUser (id : Nat)
  | createUser (fields : UserFields)
  | updateUser (id : Nat) (fields : UserFields)
deriving DecidableEq, Repr

/-- Whether a user-module call mutates backend state. -/
def UserCall.isMutating : UserCall → Bool
  | .getUsers => false
  | .getRoles => false
  | .deleteUser _ => true
  | .createUser _ => true
  | .updateUser _ _ => true

/-- The result of one invocation of the user module. -/
structure UserRun where
  trace : List UserCall
  result : Except EdaError (Bool × UserBackend)
deriving Repr

/-- The client-side scan of `user.main` lines 126-131: retrieve all users
and keep the last one whose `username` equals the parameter (the loop has no
break, so a later match overwrites an earlier one). -/
def findLastUser (users : List StoredUser) (nm : String) : Option StoredUser :=
  (users.filter (fun u => u.username == nm)).getLast?

/-- The inner scan of `user.main` lines 157-160: `find_role` is overwritten
by every system role whose name matches, so the last match wins and no
ambiguity check is made. -/
def findRoleByName (sys : List RoleObj) (nm : String) : Option RoleObj :=
  (sys.filter (fun r => r.name == nm)).getLast?

/-- The role-resolution loop of `user.main` lines 156-164: each requested
role name is looked up among the system roles; the first name with no match
aborts via `fail_json`, otherwise the matched ids are collected in order. -/
def resolveRoles (sys : List RoleObj) : List String → Except EdaError (List Nat)
  | [] => .ok []
  | nm :: rest =>
    match findRoleByName sys nm with
    | none => .error (.failJson ("Unable to find role " ++ nm))
    | some r => (resolveRoles sys rest).map (fun ids => r.id :: ids)

/-- Ascending insertion into a sorted list, for modelling Python's
`list.sort()` on role ids. -/
def insertNat (x : Nat) : List Nat → List Nat
  | [] => [x]
  | y :: ys => if x ≤ y then x :: y :: ys else y :: insertNat x ys

/-- Python's `list.sort()` on a list of ids (ascending). -/
def sortNat (l : List Nat) : List Nat :=
  l.foldr insertNat []

/-- The nested role object the server stores for a submitted role id:
the id together with its name from the `roles` collection. Modelled from
the spec (the server returns related objects as "full nested objects";
server-side behaviour is external). -/
def roleObjOf (b : UserBackend) (rid : Nat) : RoleObj :=
  ⟨rid, ((b.roles.find? (fun r => r.id == rid)).map RoleObj.name).getD ""⟩

/-- Creating a user in the store (effect of `EDAModule.create_if_needed` on
`users`; modelled from the spec, missing source: `eda_module.py`). Submitted
role ids are stored as nested role objects. -/
def addUser (b : UserBackend) (f : UserFields) : StoredUser × UserBackend :=
  let u : StoredUser :=
    ⟨b.nextId, f.username, f.first_name, f.last_name, f.password,
     f.is_superuser, f.roles.map (roleObjOf b)⟩
  (u, { b with users := b.users ++ [u], nextId := b.nextId + 1 })

/-- Deleting a user from the store (effect of `EDAModule.delete_if_needed`;
modelled from the spec, missing source: `eda_module.py`). -/
def removeUser (b : UserBackend) (i : Nat) : UserBackend :=
  { b with users := b.users.filter (fun u => u.id ≠ i) }

/-- Updating an existing user with a submitted payload: submitted fields
replace the stored ones, fields absent from the submission are kept.
Modelled from the spec (missing source: `eda_module.py`). -/
def updateUserStore (b : UserBackend) (i : Nat) (f : UserFields) : UserBackend :=
  { b with users := b.users.map (fun u =>
      if u.id = i then
        ⟨u.id, f.username,
         (match f.first_name with | some v => some v | none => u.first_name),
         (match f.last_name with | some v => some v | none => u.last_name),
         f.password, f.is_superuser, f.roles.map (roleObjOf b)⟩
      else u) }

/-- Comparison of the submitted user payload against the existing user, as
performed by `create_or_update_if_needed` after `user.main` lines 170-178
replaced the existing nested role objects by the flattened sorted id list
`exRoles` (spec section 4.2 step e: fields absent from the submission are
not compared). Modelled from the spec, missing source: `eda_module.py`. -/
def userFieldsMatch (u : StoredUser) (exRoles : List Nat) (f : UserFields) : Bool :=
  f.username == u.username
    && (match f.first_name with
        | none => true
        | some v => u.first_name == some v)
    && (match f.last_name with
        | none => true
        | some v => u.last_name == some v)
    && f.password == u.password
    && f.is_superuser == u.is_superuser
    && f.roles == exRoles

/-- Embedding of `main` in `src/plugins/modules/user.py` (lines 91-187):
scan all users for the username, handle `state=absent`, assemble
`new_fields` with the chosen key, resolve role names to ids (failing on the
first unknown name), flatten and sort the role lists when a user exists, and
hand off to `create_or_update_if_needed`. -/
def user_main (p : UserParams) (b : UserBackend) : UserRun :=
  let existing := findLastUser b.users p.username
  match p.state with
  | .absent =>
    match existing with
    | none => ⟨[.getUsers], .ok (false, b)⟩
    | some u => ⟨[.getUsers, .deleteUser u.id], .ok (true, removeUser b u.id)⟩
  | .present =>
    let theName :=
      chosenKey p.new_username (existing.map StoredUser.username) p.username
    match resolveRoles b.roles p.roles with
    | .error e => ⟨[.getUsers, .getRoles], .error e⟩
    | .ok ids =>
      match existing with
      | none =>
        let f : UserFields :=
          ⟨theName, p.first_name, p.last_name, p.password, p.is_superuser, ids⟩
        ⟨[.getUsers, .getRoles, .createUser f], .ok (true, (addUser b f).2)⟩
      | some u =>
        let exRoles := sortNat ((u.roles.map RoleObj.id))
        let f : UserFields :=
          ⟨theName, p.first_name, p.last_name, p.password, p.is_superuser,
           sortNat ids⟩
        if userFieldsMatch u exRoles f then
          ⟨[.getUsers, .getRoles], .ok (false, b)⟩
        else
          ⟨[.getUsers, .getRoles, .updateUser u.id f],
           .ok (true, updateUserStore b u.id f)⟩

/-! ## The `users.py` module

`src/plugins/modules/users.py` manages the same `users` collection but its
`main` builds the lookup with `module.get_one("users", name_or_id=name, ...)`
(line 108) even though no local variable `name` is ever assigned (lines
101-103 bind `username`, `new_username` and `state`), so evaluating the
argument raises a Python `NameError` before `get_one` is entered. The
embedding models the local scope explicitly. -/

/-- A Python value bound in the local scope of `users.main`. -/
inductive PyVal where
  | noneVal
  | str (s : String)
  | dict
deriving DecidableEq, Repr

/-- The module parameters of `users.py` (its `argument_spec`, lines 87-95). -/
structure UsersParams where
  username : String
  new_username : Option String
  first_name : Option String
  last_name : Option String
  email : Option String
  password : String
  state : State
deriving DecidableEq, Repr

/-- A user record of the `users.py` module (it has an `email` field and no
roles handling). -/
structure BasicUser where
  id : Nat
  username : String
  first_name : Option String
  last_name : Option String
  email : Option String
  password : String
deriving DecidableEq, Repr

/-- Backend store seen by `users.py`. -/
structure UsersBackend where
  users : List BasicUser
  nextId : Nat
deriving DecidableEq, Repr

/-- One REST call issued by `users.py`. -/
inductive UsersCall where
  | getUsers (key : PyVal)
  | deleteUser (id : Nat)
  | createUser (fields : List (String × PyVal))
  | updateUser (id : Nat) (fields : List (String × PyVal))
deriving DecidableEq, Repr

/-- The result of one invocation of `users.main`. -/
structure UsersRun where
  trace : List UsersCall
  result : Except EdaError (Bool × UsersBackend)
deriving Repr

/-- The local variables bound in `users.main` before line 108 executes,
with their values (lines 98-105: `module`, `username`, `new_username`,
`state`, `new_fields`). No binding for `name` exists. -/
def usersLocalScope (p : UsersParams) : List (String × PyVal) :=
  [("module", PyVal.dict),
   ("username", PyVal.str p.username),
   ("new_username",
     match p.new_username with
     | some v => PyVal.str v
     | none => PyVal.noneVal),
   ("state",
     match p.state with
     | .present => PyVal.str "present"
     | .absent => PyVal.str "absent"),
   ("new_fields", PyVal.dict)]

/-- Resolve a Python identifier in a local scope. -/
def resolveLocal (env : List (String × PyVal)) (v : String) : Option PyVal :=
  (env.find? (fun x => x.1 == v)).map Prod.snd

/-- The remainder of `users.main` from line 108 on, parameterised by the
value the identifier `name` would have resolved to; this code is
unreachable because the identifier is unbound. -/
def users_main_rest (p : UsersParams) (nameVal : PyVal) (b : UsersBackend) :
    UsersRun :=
  let matches_ := b.users.filter (fun u => PyVal.str u.username == nameVal)
  match matches_ with
  | _ :: _ :: _ => ⟨[.getUsers nameVal], .error (.ambiguous "users" p.username)⟩
  | found =>
    let existing := found.head?
    match p.state with
    | .absent =>
      match existing with
      | none => ⟨[.getUsers nameVal], .ok (false, b)⟩
      | some u =>
        ⟨[.getUsers nameVal, .deleteUser u.id],
         .ok (true, { b with users := b.users.filter (fun x => x.id ≠ u.id) })⟩
    | .present =>
      let theName :=
        chosenKey p.new_username (existing.map BasicUser.username) p.username
      let f : List (String × PyVal) :=
        [("username", PyVal.str theName)]
          ++ (match p.first_name with
              | some v => [("first_name", PyVal.str v)]
              | none => [])
          ++ (match p.last_name with
              | some v => [("last_name", PyVal.str v)]
              | none => [])
          ++ (match p.email with
              | some v => [("email", PyVal.str v)]
              | none => [])
      match existing with
      | none =>
        ⟨[.getUsers nameVal, .createUser f],
         .ok (true, { b with nextId := b.nextId + 1 })⟩
      | some u =>
        ⟨[.getUsers nameVal, .updateUser u.id f], .ok (true, b)⟩

/-- Embedding of `main` in `src/plugins/modules/users.py` (lines 85-134):
the call argument `name` at line 108 is resolved against the local scope;
an unbound identifier raises `NameError` before any REST call is issued. -/
def users_main (p : UsersParams) (b : UsersBackend) : UsersRun :=
  match resolveLocal (usersLocalScope p) "name" with
  | none => ⟨[], .error (.nameError "name")⟩
  | some v => users_main_rest p v b

/-! ## Run projections -/

/-- The `changed` flag reported by an activation run, `none` on failure. -/
def ActRun.changedFlag (r : ActRun) : Option Bool :=
  match r.result with
  | .ok (c, _) => some c
  | .error _ => none

/-- The backend state after an activation run (unchanged on failure). -/
def ActRun.backendAfter (r : ActRun) (b : ActBackend) : ActBackend :=
  match r.result with
  | .ok (_, b2) => b2
  | .error _ => b

/-- Whether a user run ended without failure. -/
def UserRun.succeeded (r : UserRun) : Bool :=
  match r.result with
  | .ok _ => true
  | .error _ => false

/-! ## Concrete fixtures for witnesses and counterexamples -/

/-- A backend with one project, decision environment and rulebook, and no
activation. -/
def bActEx : ActBackend := ⟨[], [], [⟨1, "proj"⟩], [⟨2, "de"⟩], [⟨3, "rb", 1⟩], 10⟩

/-- Parameters requesting activation `act` with no variables. -/
def pActEx : ActParams :=
  ⟨"act", none, none, "proj", "rb", "de", "always", true, none, .present⟩

/-- Parameters requesting activation `act` with a variables dictionary. -/
def pActVarsEx : ActParams :=
  ⟨"act", none, none, "proj", "rb", "de", "always", true,
   some [("k", "v")], .present⟩

/-- An activation already present on the backend. -/
def aExisting : Activation := ⟨7, ⟨"act", none, "always", true, 1, 2, 3, none⟩⟩

/-- `bActEx` with `aExisting` already present. -/
def bActWithExisting : ActBackend :=
  ⟨[aExisting], [], [⟨1, "proj"⟩], [⟨2, "de"⟩], [⟨3, "rb", 1⟩], 10⟩

/-- A backend with no projects at all, so project resolution fails. -/
def bActNoProjects : ActBackend := ⟨[], [], [], [], [], 0⟩

/-- The system roles collection with two distinct roles. -/
def rolesEx : List RoleObj := [⟨1, "A"⟩, ⟨2, "B"⟩]

/-- An existing user whose nested role objects appear out of order. -/
def uExisting : StoredUser :=
  ⟨4, "u", none, none, "pw", false, [⟨2, "B"⟩, ⟨1, "A"⟩]⟩

/-- A user backend with no users. -/
def bUserEx : UserBackend := ⟨[], rolesEx, 20⟩

/-- A user backend holding `uExisting`. -/
def bUserWithExisting : UserBackend := ⟨[uExisting], rolesEx, 20⟩

/-- Parameters for user `u` with roles `A` and `B`. -/
def pUserEx : UserParams :=
  ⟨"u", none, none, none, ["A", "B"], "pw", false, .present⟩

/-- Parameters for user `u` requesting a rename to `u2`. -/
def pUserRename : UserParams :=
  ⟨"u", some "u2", none, none, ["A", "B"], "pw", false, .present⟩

/-- A user backend whose roles collection has two roles with the same name. -/
def bUserDupRoles : UserBackend := ⟨[], [⟨5, "A"⟩, ⟨7, "A"⟩], 20⟩

/-- Parameters for user `u` with the single role name `A`. -/
def pUserOneRole : UserParams :=
  ⟨"u", none, none, none, ["A"], "pw", false, .present⟩

/-! ## Helper lemmas -/

/-- A list with no last element is empty. -/
theorem eq_nil_of_getLast?_eq_none {α : Type} {l : List α}
    (h : l.getLast? = none) : l = [] := by
  cases l with
  | nil => rfl
  | cons x xs => simp [List.getLast?_eq_none_iff] at h

/-- A successful `get_one` on activations pins down the filtered list. -/
theorem actGetOne_eq_some {items : List Activation} {nm : String}
    {a : Activation} (h : actGetOne items nm = .ok (some a)) :
    items.filter (fun x => x.fields.name == nm) = [a] := by
  unfold actGetOne at h
  cases hf : items.filter (fun x => x.fields.name == nm) with
  | nil => rw [hf] at h; simp at h
  | cons x xs =>
    cases xs with
    | nil => rw [hf] at h; simp at h; rw [h]
    | cons y ys => rw [hf] at h; simp at h

/-- If filtering a list by a predicate leaves exactly one element, then
filtering out that element (by any test it fails) leaves nothing matching
the predicate. -/
theorem filter_filter_eq_nil_of_singleton {α : Type} (q p2 : α → Bool)
    {l : List α} {a : α} (h : l.filter q = [a]) (hpa : p2 a = false) :
    (l.filter p2).filter q = [] := by
  rw [List.eq_nil_iff_forall_not_mem]
  intro x hx
  rw [List.mem_filter] at hx
  obtain ⟨hx1, hxq⟩ := hx
  rw [List.mem_filter] at hx1
  obtain ⟨hxl, hxp⟩ := hx1
  have hmem : x ∈ l.filter q := List.mem_filter.mpr ⟨hxl, hxq⟩
  rw [h, List.mem_singleton] at hmem
  subst hmem
  rw [hpa] at hxp
  exact Bool.false_ne_true hxp

/-- Sufficient componentwise conditions for the modelled submitted-fields
comparison to report a match. -/
theorem userFieldsMatch_of_components (u : StoredUser) (exR : List Nat)
    (f : UserFields) (h1 : f.username = u.username)
    (h2 : ∀ v, f.first_name = some v → u.first_name = some v)
    (h3 : ∀ v, f.last_name = some v → u.last_name = some v)
    (h4 : f.password = u.password) (h5 : f.is_superuser = u.is_superuser)
    (h6 : f.roles = exR) : userFieldsMatch u exR f = true := by
  unfold userFieldsMatch
  simp only [Bool.and_eq_true, beq_iff_eq]
  refine ⟨⟨⟨⟨⟨h1, ?_⟩, ?_⟩, h4⟩, h5⟩, h6⟩
  · cases hc : f.first_name with
    | none => rfl
    | some v => simp [h2 v hc]
  · cases hc : f.last_name with
    | none => rfl
    | some v => simp [h3 v hc]

/-! ## Claim theorems -/

/-- C8: every invocation of `users.main` (`src/plugins/modules/users.py`)
fails with an unbound-variable (`NameError`) failure on the identifier
`name` while building the existing-item lookup, before any REST call
(lookup or mutation) is issued: the trace is empty. -/
theorem users_main_always_name_error (p : UsersParams) (b : UsersBackend) :
    users_main p b = ⟨[], .error (.nameError "name")⟩ := rfl

/-- C1: with `state=present` and an existing activation found, the rulebook
activation module warns, deletes the existing activation and creates a fresh
one carrying the merged fields; it never issues an in-place update for this
resource type. -/
theorem activation_present_recreates (p : ActParams) (b : ActBackend)
    (a : Activation) (pid did : Nat) (rb : Rulebook)
    (hs : p.state = .present)
    (he : actGetOne b.activations p.name = .ok (some a))
    (hp : resolveNameToId "projects" Project.name Project.id
      b.projects p.project = .ok pid)
    (hd : resolveNameToId "decision-environments" DecisionEnv.name
      DecisionEnv.id b.decisionEnvs p.decision_environment = .ok did)
    (hr : getExactlyOneRulebook b.rulebooks p.rulebook pid = .ok rb) :
    (activation_main p b).warnings = [actWarning p.name] ∧
    ∃ pre mid f, (activation_main p b).trace
        = pre ++ [ActCall.deleteActivation a.id] ++ mid
          ++ [ActCall.createActivation f] ∧
      f.name = chosenKey p.new_name (some a.fields.name) p.name ∧
      f.description = p.description ∧
      f.restart_policy = p.restart_policy ∧
      f.is_enabled = p.is_enabled ∧
      f.project_id = pid ∧
      f.decision_environment_id = did ∧
      f.rulebook_id = rb.id ∧
      ∀ i g, ActCall.updateActivation i g ∉ (activation_main p b).trace := by
  simp only [activation_main, he, hs, hp, hd, hr, Option.map_some,
    actCreateOrUpdate]
  cases hv : p.«variables» with
  | none =>
    simp only [hv]
    refine ⟨by simp, [ActCall.getActivations p.name, ActCall.getProjects p.project,
      ActCall.getDecisionEnvs p.decision_environment,
      ActCall.getRulebooks p.rulebook pid], [],
      ⟨chosenKey p.new_name (some a.fields.name) p.name, p.description,
       p.restart_policy, p.is_enabled, pid, did, rb.id, none⟩,
      by simp, rfl, rfl, rfl, rfl, rfl, rfl, rfl, ?_⟩

    intro i g
    simp [he, hs, hp, hd, hr, hv, activation_main, actCreateOrUpdate]
  | some v =>
    simp only [hv]
    refine ⟨by simp, [ActCall.getActivations p.name, ActCall.getProjects p.project,
      ActCall.getDecisionEnvs p.decision_environment,
      ActCall.getRulebooks p.rulebook pid], [ActCall.createExtraVars v],
      ⟨chosenKey p.new_name (some a.fields.name) p.name, p.description,
       p.restart_policy, p.is_enabled, pid, did, rb.id,
       some (addExtraVar (removeActivation b a.id) v).1.id⟩,
      by simp, rfl, rfl, rfl, rfl, rfl, rfl, rfl, ?_⟩
    intro i g
    simp [he, hs, hp, hd, hr, hv, activation_main, actCreateOrUpdate]

/-- Witness for C1 at a concrete backend holding an existing activation. -/
theorem activation_present_recreates_witness :
    actGetOne bActWithExisting.activations pActEx.name
        = .ok (some aExisting) ∧
    ((activation_main pActEx bActWithExisting).warnings
        = [actWarning pActEx.name] ∧
      ∃ pre mid f, (activation_main pActEx bActWithExisting).trace
          = pre ++ [ActCall.deleteActivation aExisting.id] ++ mid
            ++ [ActCall.createActivation f] ∧
        f.name = chosenKey pActEx.new_name (some aExisting.fields.name)
          pActEx.name ∧
        f.description = pActEx.description ∧
        f.restart_policy = pActEx.restart_policy ∧
        f.is_enabled = pActEx.is_enabled ∧
        f.project_id = 1 ∧
        f.decision_environment_id = 2 ∧
        f.rulebook_id = Rulebook.id ⟨3, "rb", 1⟩ ∧
        ∀ i g, ActCall.updateActivation i g
          ∉ (activation_main pActEx bActWithExisting).trace) :=
  ⟨rfl, activation_present_recreates pActEx bActWithExisting aExisting 1 2
    ⟨3, "rb", 1⟩ rfl rfl rfl rfl rfl⟩

/-- C6: whenever the `variables` option is supplied and the activation run
succeeds, the create on the `extra-vars` collection is issued immediately
before the create of the parent activation, and no create of any kind
precedes it. -/
theorem extra_vars_created_before_activation (p : ActParams) (b : ActBackend)
    (v : Vars) (c : Bool) (bf : ActBackend)
    (hs : p.state = .present) (hv : p.«variables» = some v)
    (hres : (activation_main p b).result = .ok (c, bf)) :
    ∃ pre f, (activation_main p b).trace
        = pre ++ [ActCall.createExtraVars v, ActCall.createActivation f] ∧
      ∀ call ∈ pre, call.isCreate = false := by
  unfold activation_main at hres ⊢
  cases hge : actGetOne b.activations p.name with
  | error e => simp only [hge] at hres; exact Except.noConfusion hres
  | ok ex =>
    simp only [hge, hs] at hres ⊢
    cases hp : resolveNameToId "projects" Project.name Project.id
        b.projects p.project with
    | error e => simp only [hp] at hres; exact Except.noConfusion hres
    | ok pid =>
      simp only [hp] at hres ⊢
      cases hd : resolveNameToId "decision-environments" DecisionEnv.name
          DecisionEnv.id b.decisionEnvs p.decision_environment with
      | error e => simp only [hd] at hres; exact Except.noConfusion hres
      | ok did =>
        simp only [hd] at hres ⊢
        cases hr : getExactlyOneRulebook b.rulebooks p.rulebook pid with
        | error e => simp only [hr] at hres; exact Except.noConfusion hres
        | ok rb =>
          simp only [hr, hv, actCreateOrUpdate] at hres ⊢
          cases ex with
          | none =>
            refine ⟨[ActCall.getActivations p.name,
              ActCall.getProjects p.project,
              ActCall.getDecisionEnvs p.decision_environment,
              ActCall.getRulebooks p.rulebook pid],
              ⟨chosenKey p.new_name none p.name, p.description,
               p.restart_policy, p.is_enabled, pid, did, rb.id,
               some (addExtraVar b v).1.id⟩, by simp, ?_⟩
            intro call hc
            simp at hc
            rcases hc with h | h | h | h <;> subst h <;> rfl
          | some a =>
            refine ⟨[ActCall.getActivations p.name,
              ActCall.getProjects p.project,
              ActCall.getDecisionEnvs p.decision_environment,
              ActCall.getRulebooks p.rulebook pid,
              ActCall.deleteActivation a.id],
              ⟨chosenKey p.new_name (some a.fields.name) p.name,
               p.description, p.restart_policy, p.is_enabled, pid, did,
               rb.id,
               some (addExtraVar (removeActivation b a.id) v).1.id⟩,
              by simp, ?_⟩
            intro call hc
            simp at hc
            rcases hc with h | h | h | h | h <;> subst h <;> rfl

/-- Witness for C6 at a concrete backend and parameters with variables. -/
theorem extra_vars_created_before_activation_witness :
    (activation_main pActVarsEx bActEx).result
        = .ok (true, (activation_main pActVarsEx bActEx).backendAfter bActEx) ∧
    ∃ pre f, (activation_main pActVarsEx bActEx).trace
        = pre ++ [ActCall.createExtraVars [("k", "v")],
            ActCall.createActivation f] ∧
      ∀ call ∈ pre, call.isCreate = false :=
  ⟨rfl, extra_vars_created_before_activation pActVarsEx bActEx [("k", "v")]
    true ((activation_main pActVarsEx bActEx).backendAfter bActEx)
    rfl rfl rfl⟩

/-- C10: every successful `state=present` run that supplies `variables`
creates a brand-new extra-vars resource: the extra-vars collection grows by
exactly one, and every extra-vars resource previously present survives the
run (none is ever deleted). -/
theorem extra_vars_accumulate (p : ActParams) (b : ActBackend)
    (v : Vars) (c : Bool) (bf : ActBackend)
    (hs : p.state = .present) (hv : p.«variables» = some v)
    (hres : (activation_main p b).result = .ok (c, bf)) :
    ActCall.createExtraVars v ∈ (activation_main p b).trace ∧
    bf.extraVars.length = b.extraVars.length + 1 ∧
    ∀ ev ∈ b.extraVars, ev ∈ bf.extraVars := by
  unfold activation_main at hres ⊢
  cases hge : actGetOne b.activations p.name with
  | error e => simp only [hge] at hres; exact Except.noConfusion hres
  | ok ex =>
    simp only [hge, hs] at hres ⊢
    cases hp : resolveNameToId "projects" Project.name Project.id
        b.projects p.project with
    | error e => simp only [hp] at hres; exact Except.noConfusion hres
    | ok pid =>
      simp only [hp] at hres ⊢
      cases hd : resolveNameToId "decision-environments" DecisionEnv.name
          DecisionEnv.id b.decisionEnvs p.decision_environment with
      | error e => simp only [hd] at hres; exact Except.noConfusion hres
      | ok did =>
        simp only [hd] at hres ⊢
        cases hr : getExactlyOneRulebook b.rulebooks p.rulebook pid with
        | error e => simp only [hr] at hres; exact Except.noConfusion hres
        | ok rb =>
          simp only [hr, hv, actCreateOrUpdate] at hres ⊢
          cases ex with
          | none =>
            simp only [Except.ok.injEq, Prod.mk.injEq] at hres
            obtain ⟨-, hbf⟩ := hres
            subst hbf
            refine ⟨by simp, ?_, ?_⟩
            · simp [addActivation, addExtraVar]
            · intro ev hev
              simp [addActivation, addExtraVar]
              exact Or.inl hev
          | some a =>
            simp only [Except.ok.injEq, Prod.mk.injEq] at hres
            obtain ⟨-, hbf⟩ := hres
            subst hbf
            refine ⟨by simp, ?_, ?_⟩
            · simp [addActivation, addExtraVar, removeActivation]
            · intro ev hev
              simp [addActivation, addExtraVar, removeActivation]
              exact Or.inl hev

/-- Witness for C10: a run against a backend already holding an activation
whose extra-vars are identical still grows the extra-vars collection. -/
theorem extra_vars_accumulate_witness :
    (activation_main pActVarsEx
        ⟨[⟨7, ⟨"act", none, "always", true, 1, 2, 3, some 9⟩⟩],
         [⟨9, [("k", "v")]⟩], [⟨1, "proj"⟩], [⟨2, "de"⟩], [⟨3, "rb", 1⟩],
         10⟩).result
      = .ok (true, (activation_main pActVarsEx
        ⟨[⟨7, ⟨"act", none, "always", true, 1, 2, 3, some 9⟩⟩],
         [⟨9, [("k", "v")]⟩], [⟨1, "proj"⟩], [⟨2, "de"⟩], [⟨3, "rb", 1⟩],
         10⟩).backendAfter bActEx) ∧
    ((activation_main pActVarsEx
        ⟨[⟨7, ⟨"act", none, "always", true, 1, 2, 3, some 9⟩⟩],
         [⟨9, [("k", "v")]⟩], [⟨1, "proj"⟩], [⟨2, "de"⟩], [⟨3, "rb", 1⟩],
         10⟩).backendAfter bActEx).extraVars.length
      = 1 + 1 :=
  ⟨rfl, (extra_vars_accumulate pActVarsEx
    ⟨[⟨7, ⟨"act", none, "always", true, 1, 2, 3, some 9⟩⟩],
     [⟨9, [("k", "v")]⟩], [⟨1, "proj"⟩], [⟨2, "de"⟩], [⟨3, "rb", 1⟩], 10⟩
    [("k", "v")] true _ rfl rfl rfl).2.1⟩

/-- C9: with `state=present` and an existing activation, the delete of the
existing activation is issued before the replacement creates; replaying the
trace prefix up to and including the delete leaves a store holding no
activation with the desired name, so the delete-then-create sequence is not
atomic. -/
theorem activation_delete_before_recreate (p : ActParams) (b : ActBackend)
    (a : Activation) (pid did : Nat) (rb : Rulebook)
    (hs : p.state = .present)
    (he : actGetOne b.activations p.name = .ok (some a))
    (hp : resolveNameToId "projects" Project.name Project.id
      b.projects p.project = .ok pid)
    (hd : resolveNameToId "decision-environments" DecisionEnv.name
      DecisionEnv.id b.decisionEnvs p.decision_environment = .ok did)
    (hr : getExactlyOneRulebook b.rulebooks p.rulebook pid = .ok rb) :
    ∃ post, (activation_main p b).trace
        = [ActCall.getActivations p.name, ActCall.getProjects p.project,
           ActCall.getDecisionEnvs p.decision_environment,
           ActCall.getRulebooks p.rulebook pid,
           ActCall.deleteActivation a.id] ++ post ∧
      (∃ f, ActCall.createActivation f ∈ post) ∧
      (applyActCalls b [ActCall.getActivations p.name,
           ActCall.getProjects p.project,
           ActCall.getDecisionEnvs p.decision_environment,
           ActCall.getRulebooks p.rulebook pid,
           ActCall.deleteActivation a.id]).activations.filter
        (fun x => x.fields.name == p.name) = [] := by
  have hfilter : b.activations.filter (fun x => x.fields.name == p.name)
      = [a] := actGetOne_eq_some he
  have hempty := filter_filter_eq_nil_of_singleton
    (fun x : Activation => x.fields.name == p.name)
    (fun x : Activation => decide (x.id ≠ a.id)) hfilter (by simp)
  have happly : (applyActCalls b [ActCall.getActivations p.name,
      ActCall.getProjects p.project,
      ActCall.getDecisionEnvs p.decision_environment,
      ActCall.getRulebooks p.rulebook pid,
      ActCall.deleteActivation a.id]) = removeActivation b a.id := by
    simp only [applyActCalls]
  rw [happly]
  simp only [activation_main, he, hs, hp, hd, hr, actCreateOrUpdate]
  cases hv : p.«variables» with
  | none =>
    simp only [hv]
    refine ⟨[ActCall.createActivation
      ⟨chosenKey p.new_name (some a.fields.name) p.name, p.description,
       p.restart_policy, p.is_enabled, pid, did, rb.id, none⟩],
      by simp,
      ⟨⟨chosenKey p.new_name (some a.fields.name) p.name, p.description,
        p.restart_policy, p.is_enabled, pid, did, rb.id, none⟩, by simp⟩,
      hempty⟩
  | some v =>
    simp only [hv]
    refine ⟨[ActCall.createExtraVars v, ActCall.createActivation
      ⟨chosenKey p.new_name (some a.fields.name) p.name, p.description,
       p.restart_policy, p.is_enabled, pid, did, rb.id,
       some (addExtraVar (removeActivation b a.id) v).1.id⟩],
      by simp,
      ⟨⟨chosenKey p.new_name (some a.fields.name) p.name, p.description,
        p.restart_policy, p.is_enabled, pid, did, rb.id,
        some (addExtraVar (removeActivation b a.id) v).1.id⟩, by simp⟩,
      hempty⟩

/-- Witness for C9 at a concrete backend holding the existing activation. -/
theorem activation_delete_before_recreate_witness :
    actGetOne bActWithExisting.activations pActEx.name
        = .ok (some aExisting) ∧
    ∃ post, (activation_main pActEx bActWithExisting).trace
        = [ActCall.getActivations pActEx.name,
           ActCall.getProjects pActEx.project,
           ActCall.getDecisionEnvs pActEx.decision_environment,
           ActCall.getRulebooks pActEx.rulebook 1,
           ActCall.deleteActivation aExisting.id] ++ post ∧
      (∃ f, ActCall.createActivation f ∈ post) ∧
      (applyActCalls bActWithExisting [ActCall.getActivations pActEx.name,
           ActCall.getProjects pActEx.project,
           ActCall.getDecisionEnvs pActEx.decision_environment,
           ActCall.getRulebooks pActEx.rulebook 1,
           ActCall.deleteActivation aExisting.id]).activations.filter
        (fun x => x.fields.name == pActEx.name) = [] :=
  ⟨rfl, activation_delete_before_recreate pActEx bActWithExisting aExisting
    1 2 ⟨3, "rb", 1⟩ rfl rfl rfl rfl rfl⟩

/-- C4: in both modules, any run that ends in a failure (in particular any
resolver failure: project, decision environment, rulebook or role name) has
issued no mutating call — the trace contains reads only, so no partial
write occurs due to an unresolved reference. -/
theorem resolver_failure_aborts_before_mutation :
    (∀ (p : ActParams) (b : ActBackend) (e : EdaError),
      (activation_main p b).result = .error e →
      ∀ c ∈ (activation_main p b).trace, c.isMutating = false) ∧
    (∀ (p : UserParams) (b : UserBackend) (e : EdaError),
      (user_main p b).result = .error e →
      ∀ c ∈ (user_main p b).trace, c.isMutating = false) := by
  constructor
  · intro p b e hres c hc
    unfold activation_main at hres hc
    cases hge : actGetOne b.activations p.name with
    | error err =>
      simp only [hge] at hc
      simp at hc
      subst hc; rfl
    | ok ex =>
      simp only [hge] at hres hc
      cases hst : p.state with
      | absent =>
        simp only [hst] at hres hc
        cases ex <;> simp at hres
      | present =>
        simp only [hst] at hres hc
        cases hp : resolveNameToId "projects" Project.name Project.id
            b.projects p.project with
        | error err =>
          simp only [hp] at hc
          simp at hc
          rcases hc with h | h <;> subst h <;> rfl
        | ok pid =>
          simp only [hp] at hres hc
          cases hd : resolveNameToId "decision-environments" DecisionEnv.name
              DecisionEnv.id b.decisionEnvs p.decision_environment with
          | error err =>
            simp only [hd] at hc
            simp at hc
            rcases hc with h | h | h <;> subst h <;> rfl
          | ok did =>
            simp only [hd] at hres hc
            cases hr : getExactlyOneRulebook b.rulebooks p.rulebook pid with
            | error err =>
              simp only [hr] at hc
              simp at hc
              rcases hc with h | h | h | h <;> subst h <;> rfl
            | ok rb =>
              simp only [hr, actCreateOrUpdate] at hres
              cases hv : p.«variables» <;> simp only [hv] at hres <;>
                simp at hres
  · intro p b e hres c hc
    unfold user_main at hres hc
    cases hst : p.state with
    | absent =>
      simp only [hst] at hres hc
      cases hfe : findLastUser b.users p.username <;>
        simp only [hfe] at hres <;> simp at hres
    | present =>
      simp only [hst] at hres hc
      cases hrr : resolveRoles b.roles p.roles with
      | error err =>
        simp only [hrr] at hc
        simp at hc
        rcases hc with h | h <;> subst h <;> rfl
      | ok ids =>
        simp only [hrr] at hres
        cases hfe : findLastUser b.users p.username with
        | none => simp only [hfe] at hres; simp at hres
        | some u =>
          simp only [hfe] at hres
          split at hres <;> simp at hres

/-- Witness for C4: a backend with no projects makes project resolution
fail; the trace of that failing run carries no mutating call. -/
theorem resolver_failure_aborts_before_mutation_witness :
    (activation_main pActEx bActNoProjects).result
        = .error (.notFound "projects" "proj") ∧
    ∀ c ∈ (activation_main pActEx bActNoProjects).trace,
      c.isMutating = false :=
  ⟨rfl, resolver_failure_aborts_before_mutation.1 pActEx bActNoProjects
    (.notFound "projects" "proj") rfl⟩

/-- C7: with `state=present`, every submitted payload carries as its key
the new-key option when supplied, otherwise the existing resource's current
key when one was found, otherwise the original desired key; and in the user
module a run against an existing user never creates a second user — any
mutation is an update addressed at the existing user's id. -/
theorem submitted_key_follows_rename_rule :
    (∀ (p : ActParams) (b : ActBackend) (ex : Option Activation)
        (f : ActFields),
      p.state = .present →
      actGetOne b.activations p.name = .ok ex →
      (ActCall.createActivation f ∈ (activation_main p b).trace ∨
        ∃ i, ActCall.updateActivation i f ∈ (activation_main p b).trace) →
      f.name = chosenKey p.new_name (ex.map (fun a => a.fields.name))
        p.name) ∧
    (∀ (p : UserParams) (b : UserBackend) (ex : Option StoredUser)
        (f : UserFields),
      p.state = .present →
      findLastUser b.users p.username = ex →
      (UserCall.createUser f ∈ (user_main p b).trace ∨
        ∃ i, UserCall.updateUser i f ∈ (user_main p b).trace) →
      f.username = chosenKey p.new_username (ex.map StoredUser.username)
        p.username) ∧
    (∀ (p : UserParams) (b : UserBackend) (u : StoredUser),
      p.state = .present →
      findLastUser b.users p.username = some u →
      (∀ g, UserCall.createUser g ∉ (user_main p b).trace) ∧
      (∀ i g, UserCall.updateUser i g ∈ (user_main p b).trace → i = u.id)) := by
  refine ⟨?_, ?_, ?_⟩
  · intro p b ex f hs hge hmem
    unfold activation_main at hmem
    simp only [hge, hs] at hmem
    cases hp : resolveNameToId "projects" Project.name Project.id
        b.projects p.project with
    | error err =>
      simp only [hp] at hmem
      rcases hmem with hm | ⟨i, hm⟩ <;> simp at hm
    | ok pid =>
      simp only [hp] at hmem
      cases hd : resolveNameToId "decision-environments" DecisionEnv.name
          DecisionEnv.id b.decisionEnvs p.decision_environment with
      | error err =>
        simp only [hd] at hmem
        rcases hmem with hm | ⟨i, hm⟩ <;> simp at hm
      | ok did =>
        simp only [hd] at hmem
        cases hr : getExactlyOneRulebook b.rulebooks p.rulebook pid with
        | error err =>
          simp only [hr] at hmem
          rcases hmem with hm | ⟨i, hm⟩ <;> simp at hm
        | ok rb =>
          simp only [hr, actCreateOrUpdate] at hmem
          cases ex with
          | none =>
            cases hv : p.«variables» <;> simp only [hv] at hmem <;>
              rcases hmem with hm | ⟨i, hm⟩ <;> simp at hm <;> subst hm <;>
              rfl
          | some a =>
            cases hv : p.«variables» <;> simp only [hv] at hmem <;>
              rcases hmem with hm | ⟨i, hm⟩ <;> simp at hm <;> subst hm <;>
              rfl
  · intro p b ex f hs hfe hmem
    cases ex with
    | none =>
      unfold user_main at hmem
      simp only [hfe, hs] at hmem
      cases hrr : resolveRoles b.roles p.roles with
      | error err =>
        simp only [hrr] at hmem
        rcases hmem with hm | ⟨i, hm⟩ <;> simp at hm
      | ok ids =>
        simp only [hrr] at hmem
        rcases hmem with hm | ⟨i, hm⟩ <;> simp at hm
        subst hm; rfl
    | some u =>
      unfold user_main at hmem
      simp only [hfe, hs] at hmem
      cases hrr : resolveRoles b.roles p.roles with
      | error err =>
        simp only [hrr] at hmem
        rcases hmem with hm | ⟨i, hm⟩ <;> simp at hm
      | ok ids =>
        simp only [hrr] at hmem
        split at hmem
        · rcases hmem with hm | ⟨i, hm⟩ <;> simp at hm
        · rcases hmem with hm | ⟨i, hm⟩
          · simp at hm
          · simp at hm
            obtain ⟨-, hm⟩ := hm
            subst hm
            rfl
  · intro p b u hs hfe
    constructor
    · intro g hmem
      unfold user_main at hmem
      simp only [hfe, hs] at hmem
      cases hrr : resolveRoles b.roles p.roles with
      | error err => simp only [hrr] at hmem; simp at hmem
      | ok ids =>
        simp only [hrr] at hmem
        split at hmem <;> simp at hmem
    · intro i g hmem
      unfold user_main at hmem
      simp only [hfe, hs] at hmem
      cases hrr : resolveRoles b.roles p.roles with
      | error err => simp only [hrr] at hmem; simp at hmem
      | ok ids =>
        simp only [hrr] at hmem
        split at hmem <;> simp at hmem
        exact hmem.1

/-- Witness for C7: renaming an existing user submits the new username and
issues no create. -/
theorem submitted_key_follows_rename_rule_witness :
    findLastUser bUserWithExisting.users pUserRename.username
        = some uExisting ∧
    (∀ g, UserCall.createUser g ∉
      (user_main pUserRename bUserWithExisting).trace) ∧
    (∀ i g, UserCall.updateUser i g ∈
        (user_main pUserRename bUserWithExisting).trace → i = uExisting.id) ∧
    (∀ f, (UserCall.createUser f ∈
          (user_main pUserRename bUserWithExisting).trace ∨
        ∃ i, UserCall.updateUser i f ∈
          (user_main pUserRename bUserWithExisting).trace) →
      f.username = "u2") :=
  ⟨rfl,
   (submitted_key_follows_rename_rule.2.2 pUserRename bUserWithExisting
     uExisting rfl rfl).1,
   (submitted_key_follows_rename_rule.2.2 pUserRename bUserWithExisting
     uExisting rfl rfl).2,
   fun f hf => submitted_key_follows_rename_rule.2.1 pUserRename
     bUserWithExisting (some uExisting) f rfl rfl hf⟩

/-- C3 counterexample: with two system roles both named `A`, the user module
does not fail with an ambiguous-match error: the run succeeds and silently
submits the id of the last matching role (id 7). -/
theorem user_role_ambiguity_counterexample :
    (user_main pUserOneRole bUserDupRoles).succeeded = true ∧
    UserCall.createUser ⟨"u", none, none, "pw", false, [7]⟩
      ∈ (user_main pUserOneRole bUserDupRoles).trace := by
  exact ⟨rfl, by decide⟩

/-- C3 (amended): a role name with zero matches makes the user module fail
with the not-found (`Unable to find role`) message, but a role name with
several matches does not fail: the loop silently resolves it to the last
matching role's id. -/
theorem user_role_lookup_amended (p : UserParams) (b : UserBackend)
    (nm : String) (rest : List String)
    (hs : p.state = .present) (hroles : p.roles = nm :: rest) :
    (b.roles.filter (fun r => r.name == nm) = [] →
      (user_main p b).result
        = .error (.failJson ("Unable to find role " ++ nm))) ∧
    (∀ r1 r2, b.roles.filter (fun r => r.name == nm) = [r1, r2] →
      ∀ ids, resolveRoles b.roles p.roles = .ok ids →
        ids.head? = some r2.id) := by
  constructor
  · intro hz
    have hfr : findRoleByName b.roles nm = none := by
      unfold findRoleByName
      rw [hz]
      rfl
    have hrr : resolveRoles b.roles p.roles
        = .error (.failJson ("Unable to find role " ++ nm)) := by
      rw [hroles]
      unfold resolveRoles
      rw [hfr]
    unfold user_main
    cases hfe : findLastUser b.users p.username <;>
      simp only [hfe, hs, hrr]
  · intro r1 r2 h2 ids hids
    have hfr : findRoleByName b.roles nm = some r2 := by
      unfold findRoleByName
      rw [h2]
      rfl
    rw [hroles] at hids
    unfold resolveRoles at hids
    rw [hfr] at hids
    cases hre : resolveRoles b.roles rest with
    | error e =>
      rw [hre] at hids
      simp [Except.map] at hids
    | ok tl =>
      rw [hre] at hids
      simp [Except.map] at hids
      rw [← hids]
      rfl

/-- Witness for the amended C3 at the duplicate-role backend. -/
theorem user_role_lookup_amended_witness :
    pUserOneRole.roles = "A" :: [] ∧
    ∀ ids, resolveRoles bUserDupRoles.roles pUserOneRole.roles = .ok ids →
      ids.head? = some 7 :=
  ⟨rfl, fun ids h =>
    (user_role_lookup_amended pUserOneRole bUserDupRoles "A" [] rfl rfl).2
      ⟨5, "A"⟩ ⟨7, "A"⟩ rfl ids h⟩

/-- C5: in the user module with `state=present` against an existing user,
the nested role objects are flattened to ids and both id lists are sorted
before comparison; when the sorted id sets agree and the scalar fields
match, the outcome is unchanged and no mutating call is issued. -/
theorem user_roles_order_insensitive (p : UserParams) (b : UserBackend)
    (u : StoredUser) (ids : List Nat)
    (hs : p.state = .present)
    (he : findLastUser b.users p.username = some u)
    (hr : resolveRoles b.roles p.roles = .ok ids)
    (hflat : sortNat (u.roles.map RoleObj.id) = sortNat ids)
    (hname : chosenKey p.new_username (some u.username) p.username
      = u.username)
    (hfn : ∀ v, p.first_name = some v → u.first_name = some v)
    (hln : ∀ v, p.last_name = some v → u.last_name = some v)
    (hpw : p.password = u.password)
    (hsu : p.is_superuser = u.is_superuser) :
    (user_main p b).result = .ok (false, b) ∧
    ∀ c ∈ (user_main p b).trace, c.isMutating = false := by
  have hmatch : userFieldsMatch u (sortNat (u.roles.map RoleObj.id))
      ⟨chosenKey p.new_username (some u.username) p.username, p.first_name,
       p.last_name, p.password, p.is_superuser, sortNat ids⟩ = true := by
    unfold userFieldsMatch
    simp only [Bool.and_eq_true, beq_iff_eq]
    refine ⟨⟨⟨⟨⟨hname, ?_⟩, ?_⟩, hpw⟩, hsu⟩, hflat.symm⟩
    · cases hc1 : p.first_name with
      | none => rfl
      | some v => simp [hfn v hc1]
    · cases hc2 : p.last_name with
      | none => rfl
      | some v => simp [hln v hc2]
  unfold user_main
  simp only [he, hs, hr, Option.map_some']
  rw [hmatch]
  constructor
  · rfl
  · intro c hc
    simp at hc
    rcases hc with h | h <;> subst h <;> rfl

/-- Witness for C5 at the concrete instance of the claim: existing nested
objects `[⟨2,B⟩, ⟨1,A⟩]` against a desired id list resolving to `[1, 2]`. -/
theorem user_roles_order_insensitive_witness :
    uExisting.roles = [⟨2, "B"⟩, ⟨1, "A"⟩] ∧
    resolveRoles bUserWithExisting.roles pUserEx.roles = .ok [1, 2] ∧
    (user_main pUserEx bUserWithExisting).result
        = .ok (false, bUserWithExisting) ∧
    ∀ c ∈ (user_main pUserEx bUserWithExisting).trace,
      c.isMutating = false :=
  ⟨rfl, rfl,
   (user_roles_order_insensitive pUserEx bUserWithExisting uExisting [1, 2]
     rfl rfl rfl (by decide) rfl (fun v h => Option.noConfusion h)
     (fun v h => Option.noConfusion h) rfl rfl).1,
   (user_roles_order_insensitive pUserEx bUserWithExisting uExisting [1, 2]
     rfl rfl rfl (by decide) rfl (fun v h => Option.noConfusion h)
     (fun v h => Option.noConfusion h) rfl rfl).2⟩

/-- C2 counterexample: for the rulebook activation module, two successive
identical `state=present` runs both report `changed`: the second run finds
the activation created by the first, deletes it and recreates it, so the
claimed convergence to `changed=false` fails. -/
theorem reconcile_twice_counterexample :
    (activation_main pActEx bActEx).changedFlag = some true ∧
    (activation_main pActEx
        ((activation_main pActEx bActEx).backendAfter bActEx)).changedFlag
      = some true :=
  ⟨rfl, rfl⟩

/-- C2 (amended): the idempotence holds for the update-capable user module:
starting from a backend with no user of the desired username and no rename
requested, the first `present` run reports changed and the second identical
run reports unchanged. (For the rulebook activation module the original
claim fails — see the counterexample — because an existing activation is
always deleted and recreated.) -/
theorem user_reconcile_idempotent (p : UserParams) (b : UserBackend)
    (ids : List Nat)
    (hs : p.state = .present)
    (hn : p.new_username = none)
    (he : findLastUser b.users p.username = none)
    (hr : resolveRoles b.roles p.roles = .ok ids) :
    ∃ b2, (user_main p b).result = .ok (true, b2) ∧
      (user_main p b2).result = .ok (false, b2) := by
  have he2 : (b.users.filter (fun u => u.username == p.username)).getLast?
      = none := he
  have hfilter : b.users.filter (fun u => u.username == p.username) = [] :=
    eq_nil_of_getLast?_eq_none he2
  refine ⟨(addUser b ⟨p.username, p.first_name, p.last_name, p.password,
    p.is_superuser, ids⟩).2, ?_, ?_⟩
  · unfold user_main
    simp only [he, hs, hr, hn, chosenKey]
    rfl
  · have hfind2 : findLastUser ((addUser b ⟨p.username, p.first_name,
        p.last_name, p.password, p.is_superuser, ids⟩).2).users p.username
        = some ⟨b.nextId, p.username, p.first_name, p.last_name, p.password,
          p.is_superuser, ids.map (roleObjOf b)⟩ := by
      unfold findLastUser addUser
      simp only [List.filter_append, hfilter]
      simp
    have hr2 : resolveRoles ((addUser b ⟨p.username, p.first_name,
        p.last_name, p.password, p.is_superuser, ids⟩).2).roles p.roles
        = .ok ids := hr
    have hflat : List.map RoleObj.id (List.map (roleObjOf b) ids) = ids := by
      rw [List.map_map]
      have hcomp : (RoleObj.id ∘ roleObjOf b) = fun rid : Nat => rid := rfl
      rw [hcomp]
      exact List.map_id ids
    have hmatch : userFieldsMatch
        ⟨b.nextId, p.username, p.first_name, p.last_name, p.password,
         p.is_superuser, ids.map (roleObjOf b)⟩
        (sortNat (List.map RoleObj.id (List.map (roleObjOf b) ids)))
        ⟨chosenKey p.new_username (some p.username) p.username, p.first_name,
         p.last_name, p.password, p.is_superuser, sortNat ids⟩ = true := by
      refine userFieldsMatch_of_components _ _ _ ?_ (fun v hv => hv)
        (fun v hv => hv) rfl rfl ?_
      · rw [hn]
        rfl
      · rw [hflat]
    unfold user_main
    simp only [hfind2, hs, hr2, Option.map_some']
    rw [hmatch]
    rfl

/-- Witness for the amended C2 at a concrete empty user backend. -/
theorem user_reconcile_idempotent_witness :
    findLastUser bUserEx.users pUserEx.username = none ∧
    ∃ b2, (user_main pUserEx bUserEx).result = .ok (true, b2) ∧
      (user_main pUserEx b2).result = .ok (false, b2) :=
  ⟨rfl, user_reconcile_idempotent pUserEx bUserEx [1, 2] rfl rfl rfl rfl⟩

end Eda
